import Mathlib

/-!
Shallow embedding of the reporting and sale-entry core of a point-of-sale
back office (`app.py`).  The Firestore ledger is modelled as a list of
sale documents, the product directory as an association list from document
id to product fields.  Dynamic document typing is modelled with `Option`
fields; monetary values are exact rationals, quantities are integers.
-/

namespace Pos

/-- A timezone-aware UTC instant, as carried by ledger documents
(Python `datetime` truncated to second granularity, which is all the
code ever renders or compares at for the report output). -/
structure DateTime where
  year : Nat
  month : Nat
  day : Nat
  hour : Nat
  minute : Nat
  second : Nat
deriving DecidableEq

/-- Mixed-radix encoding of a datetime; for in-range calendar fields it is
order-isomorphic to chronological (instant) order, which is the order the
store compares and sorts timestamps by. -/
def DateTime.key (t : DateTime) : Nat :=
  ((((t.year * 13 + t.month) * 32 + t.day) * 24 + t.hour) * 60 + t.minute) * 60 + t.second

/-- Zero-pad a numeral to two digits, as `strftime` field rendering does. -/
def pad2 (n : Nat) : String :=
  if n < 10 then "0" ++ toString n else toString n

/-- Zero-pad a numeral to four digits, as `strftime` `%Y` does. -/
def pad4 (n : Nat) : String :=
  if n < 10 then "000" ++ toString n
  else if n < 100 then "00" ++ toString n
  else if n < 1000 then "0" ++ toString n
  else toString n

/-- `timestamp.strftime("%Y-%m-%d %H:%M:%S")`: the fixed-format UTC
rendering used for every row the reporting code returns. -/
def DateTime.render (t : DateTime) : String :=
  pad4 t.year ++ "-" ++ pad2 t.month ++ "-" ++ pad2 t.day ++ " " ++
    pad2 t.hour ++ ":" ++ pad2 t.minute ++ ":" ++ pad2 t.second

/-- Day count of a month, with the Gregorian leap rule, as Python
`datetime` validates on construction. -/
def daysInMonth (y m : Nat) : Nat :=
  if m = 2 then (if (y % 4 = 0 && y % 100 ≠ 0) || y % 400 = 0 then 29 else 28)
  else if m = 4 || m = 6 || m = 9 || m = 11 then 30 else 31

/-- Character is an ASCII decimal digit. -/
def isDigit (c : Char) : Bool :=
  decide ('0' ≤ c) && decide (c ≤ '9')

/-- Numeric value of a digit string. -/
def digitsToNat (cs : List Char) : Nat :=
  cs.foldl (fun n c => n * 10 + (c.toNat - 48)) 0

/-- Time-of-day part of `datetime.fromisoformat`: `HH:MM` or `HH:MM:SS`,
with the field-range validation Python performs. -/
def parseTime : List Char → Option (Nat × Nat × Nat)
  | [h1, h2, ':', m1, m2] =>
    if [h1, h2, m1, m2].all isDigit then
      let h := digitsToNat [h1, h2]
      let mi := digitsToNat [m1, m2]
      if h < 24 && mi < 60 then some (h, mi, 0) else none
    else none
  | [h1, h2, ':', m1, m2, ':', s1, s2] =>
    if [h1, h2, m1, m2, s1, s2].all isDigit then
      let h := digitsToNat [h1, h2]
      let mi := digitsToNat [m1, m2]
      let s := digitsToNat [s1, s2]
      if h < 24 && mi < 60 && s < 60 then some (h, mi, s) else none
    else none
  | _ => none

/-- `datetime.fromisoformat`, on the forms the application feeds it:
a `YYYY-MM-DD` date, optionally followed by a space or `T` separator and a
`HH:MM[:SS]` time, with Python calendar validation; any other string is a
parse failure (`ValueError`). -/
def fromisoformat (str : String) : Option DateTime :=
  match str.toList with
  | y1 :: y2 :: y3 :: y4 :: '-' :: m1 :: m2 :: '-' :: d1 :: d2 :: rest =>
    if [y1, y2, y3, y4, m1, m2, d1, d2].all isDigit then
      let y := digitsToNat [y1, y2, y3, y4]
      let mo := digitsToNat [m1, m2]
      let d := digitsToNat [d1, d2]
      if 1 ≤ y && 1 ≤ mo && mo ≤ 12 && 1 ≤ d && d ≤ daysInMonth y mo then
        match rest with
        | [] => some ⟨y, mo, d, 0, 0, 0⟩
        | sep :: timeCs =>
          if sep = ' ' || sep = 'T' then
            match parseTime timeCs with
            | some (h, mi, s) => some ⟨y, mo, d, h, mi, s⟩
            | none => none
          else none
      else none
    else none
  | _ => none

/-- A sale document of the ledger collection.  Firestore documents carry
no schema, so every field the aggregation reads through `.get` is
optional; `timestamp` is accessed unconditionally (`d["timestamp"]`) and
is always written by the sale-entry path, so it is required. -/
structure SaleRecord where
  product_id : Option String
  item : Option String
  quantity : Option Int
  price : Option ℚ
  total : Option ℚ
  payment_mode : Option String
  timestamp : DateTime
deriving DecidableEq

/-- A product-directory document: `to_dict()` with `.get("name")` and
`.get("price", 0)` reads, hence optional fields. -/
structure Product where
  name : Option String
  price : Option ℚ
deriving DecidableEq

/-- `db.collection(products).document(pid).get()`: directory lookup by
document id (ids are unique in a collection). -/
def lookupProduct (products : List (String × Product)) (pid : String) : Option Product :=
  (products.find? (fun e => e.1 == pid)).map (fun e => e.2)

/-- The JSON body of a `/api/reports` request: three optional string
fields. -/
structure ReportRequest where
  start_date : Option String
  end_date : Option String
  product_id : Option String
deriving DecidableEq

/-- One date bound of the report query: the field is used only when
truthy (absent and `""` both skip, by Python truthiness), and a parse
failure is swallowed by the bare `except: pass`, dropping the bound. -/
def parseBound (o : Option String) : Option DateTime :=
  match o with
  | none => none
  | some s => if s = "" then none else fromisoformat s

/-- The item filter of the report query: `none` means no restriction
(field absent, empty, or product id unresolved); `some pname` restricts
to records whose `item` equals the directory name `pname`. -/
def productNameFilter (products : List (String × Product)) (o : Option String) :
    Option (Option String) :=
  match o with
  | none => none
  | some pid =>
    if pid = "" then none
    else
      match lookupProduct products pid with
      | none => none
      | some prod => some prod.name

/-- The conjunction of the `where` clauses the code chains onto the
ledger query: `timestamp >= sdt`, `timestamp <= edt`, `item == pname`,
each present only when its filter was parsed or resolved. -/
def matchesReport (sdt edt : Option DateTime) (pf : Option (Option String))
    (r : SaleRecord) : Bool :=
  (match sdt with
   | none => true
   | some t => decide (t.key ≤ r.timestamp.key)) &&
  (match edt with
   | none => true
   | some t => decide (r.timestamp.key ≤ t.key)) &&
  (match pf with
   | none => true
   | some p => r.item == p)

/-- Descending timestamp order, the `order_by("timestamp", DESCENDING)`
of the ledger query. -/
def tsDesc (a b : SaleRecord) : Prop :=
  b.timestamp.key ≤ a.timestamp.key

instance : DecidableRel tsDesc := fun a b => Nat.decLe _ _

instance : IsTotal SaleRecord tsDesc :=
  ⟨fun a b => Nat.le_total b.timestamp.key a.timestamp.key⟩

instance : IsTrans SaleRecord tsDesc :=
  ⟨fun _ _ _ hab hbc => Nat.le_trans hbc hab⟩

/-- The materialized result of the ledger query of `/api/reports`: the
records passing every applied filter, ordered by timestamp descending. -/
def reportRecords (ledger : List SaleRecord) (products : List (String × Product))
    (req : ReportRequest) : List SaleRecord :=
  List.insertionSort tsDesc
    (ledger.filter
      (matchesReport (parseBound req.start_date) (parseBound req.end_date)
        (productNameFilter products req.product_id)))

/-- A row of the report output: the document dictionary with its
`timestamp` replaced by the fixed-format string. -/
structure ReportRow where
  product_id : Option String
  item : Option String
  quantity : Option Int
  price : Option ℚ
  total : Option ℚ
  payment_mode : Option String
  timestamp : String
deriving DecidableEq

/-- `d = s.to_dict(); d["timestamp"] = d["timestamp"].strftime(...)`. -/
def recordToRow (r : SaleRecord) : ReportRow :=
  ⟨r.product_id, r.item, r.quantity, r.price, r.total, r.payment_mode,
    DateTime.render r.timestamp⟩

/-- One consolidation bucket: `{"qty": 0, "amount": 0}` accumulated. -/
structure Totals where
  qty : Int
  amount : ℚ
deriving DecidableEq

/-- `m.setdefault(k, {"qty":0,"amount":0}); m[k]["qty"] += q;
m[k]["amount"] += a` on a Python dict, modelled as an insertion-ordered
association list with unique keys. -/
def bumpTotals {κ : Type} [DecidableEq κ] (m : List (κ × Totals)) (k : κ)
    (q : Int) (a : ℚ) : List (κ × Totals) :=
  match m with
  | [] => [(k, ⟨q, a⟩)]
  | (k₀, t) :: rest =>
    if k₀ = k then (k, ⟨t.qty + q, t.amount + a⟩) :: rest
    else (k₀, t) :: bumpTotals rest k q a

/-- The per-row quantity contribution `int(r.get("quantity", 0))`. -/
def rowQty (r : ReportRow) : Int :=
  r.quantity.getD 0

/-- The per-row amount contribution `float(r.get("total", 0))`. -/
def rowAmt (r : ReportRow) : ℚ :=
  r.total.getD 0

/-- The day key `r["timestamp"][:10]` of a rendered row. -/
def rowDateKey (r : ReportRow) : String :=
  r.timestamp.take 10

/-- The payment-mode bucket key `r.get("payment_mode", "Cash")`. -/
def rowMode (r : ReportRow) : String :=
  r.payment_mode.getD "Cash"

/-- The `consolidated_by_date` loop of `/api/reports`. -/
def consolidateByDate (rows : List ReportRow) : List (String × Totals) :=
  rows.foldl (fun m r => bumpTotals m (rowDateKey r) (rowQty r) (rowAmt r)) []

/-- One step of the `consolidated_by_product` loop: nested dict
`m[item][payment_mode]` with both levels `setdefault`-ed. -/
def bumpProductPayment (m : List (Option String × List (String × Totals)))
    (p : Option String) (mode : String) (q : Int) (a : ℚ) :
    List (Option String × List (String × Totals)) :=
  match m with
  | [] => [(p, bumpTotals [] mode q a)]
  | (p₀, inner) :: rest =>
    if p₀ = p then (p, bumpTotals inner mode q a) :: rest
    else (p₀, inner) :: bumpProductPayment rest p mode q a

/-- The `consolidated_by_product` loop of `/api/reports`, keyed by the
stored `item` string (`r.get("item")`, possibly absent) and payment
mode. -/
def consolidateByProductPayment (rows : List ReportRow) :
    List (Option String × List (String × Totals)) :=
  rows.foldl (fun m r => bumpProductPayment m r.item (rowMode r) (rowQty r) (rowAmt r)) []

/-- The response of `/api/reports`. -/
structure Report where
  rows : List ReportRow
  by_date : List (String × Totals)
  by_product_payment : List (Option String × List (String × Totals))
deriving DecidableEq

/-- The `/api/reports` handler: build the filtered, descending-ordered
query, materialize and render the rows, then consolidate them two
ways. -/
def api_reports (ledger : List SaleRecord) (products : List (String × Product))
    (req : ReportRequest) : Report :=
  let rows := (reportRecords ledger products req).map recordToRow
  ⟨rows, consolidateByDate rows, consolidateByProductPayment rows⟩

/-- The response of `/api/add_sale`: the success flag, the failure
message when present, the ledger state after the handler ran, and the
`last_sales` rows returned on success (the five most recent sales,
rendered).  Store-assigned document ids are not modelled. -/
structure AddSaleOutcome where
  success : Bool
  message : Option String
  ledger : List SaleRecord
  last_sales : List ReportRow
deriving DecidableEq

/-- The `/api/add_sale` handler: resolve the product; if absent, answer
`Product not found` without touching the ledger; otherwise snapshot the
product name and price into a new sale document with
`total = qty * price`, append it, and return the five most recent
sales. -/
def api_add_sale (products : List (String × Product)) (ledger : List SaleRecord)
    (product_id : String) (qty : Int) (payment_mode : Option String)
    (now : DateTime) : AddSaleOutcome :=
  match lookupProduct products product_id with
  | none => ⟨false, some "Product not found", ledger, []⟩
  | some prod =>
    let sale : SaleRecord :=
      ⟨some product_id, prod.name, some qty, some (prod.price.getD 0),
        some ((qty : ℚ) * prod.price.getD 0), some (payment_mode.getD "Cash"), now⟩
    let newLedger := ledger ++ [sale]
    ⟨true, none, newLedger,
      ((List.insertionSort tsDesc newLedger).take 5).map recordToRow⟩

/-- The stored state the handlers touch: the sales ledger and the
product directory. -/
structure PosState where
  ledger : List SaleRecord
  products : List (String × Product)
deriving DecidableEq

/-- `/api/reports` as a state transformer: the handler only issues reads
against the store, so the state it returns is the state it was given
(there is no write call anywhere in the handler body). -/
def api_reports_handler (s : PosState) (req : ReportRequest) : PosState × Report :=
  (s, api_reports s.ledger s.products req)

/-- Sum of the `qty` buckets over every key of a consolidation map. -/
def sumMapQty {κ : Type} (m : List (κ × Totals)) : Int :=
  (m.map (fun e => e.2.qty)).sum

/-- Sum of the `amount` buckets over every key of a consolidation map. -/
def sumMapAmt {κ : Type} (m : List (κ × Totals)) : ℚ :=
  (m.map (fun e => e.2.amount)).sum

/-- Sum of the `qty` buckets over every product key and payment-mode key
of the nested consolidation map. -/
def sumPPQty (m : List (Option String × List (String × Totals))) : Int :=
  (m.map (fun e => sumMapQty e.2)).sum

/-- Sum of the `amount` buckets over every product key and payment-mode
key of the nested consolidation map. -/
def sumPPAmt (m : List (Option String × List (String × Totals))) : ℚ :=
  (m.map (fun e => sumMapAmt e.2)).sum

/-- `qty` bucket stored under key `k` of a consolidation map, `0` when
the bucket does not exist yet. -/
def mapQty {κ : Type} [BEq κ] (m : List (κ × Totals)) (k : κ) : Int :=
  match (m.find? (fun e => e.1 == k)).map (fun e => e.2) with
  | none => 0
  | some t => t.qty

/-- `qty` bucket stored under product key `p`, payment-mode key `mode`
of the nested map, `0` when the bucket does not exist yet. -/
def ppQty (m : List (Option String × List (String × Totals)))
    (p : Option String) (mode : String) : Int :=
  match (m.find? (fun e => e.1 == p)).map (fun e => e.2) with
  | none => 0
  | some inner => mapQty inner mode

/-! ### Conservation lemmas for the consolidation maps -/

theorem bumpTotals_sumMapQty {κ : Type} [DecidableEq κ] (m : List (κ × Totals))
    (k : κ) (q : Int) (a : ℚ) :
    sumMapQty (bumpTotals m k q a) = sumMapQty m + q := by
  induction m with
  | nil => simp [bumpTotals, sumMapQty]
  | cons e rest ih =>
    obtain ⟨k₀, t⟩ := e
    by_cases h : k₀ = k
    · simp only [bumpTotals, if_pos h, sumMapQty, List.map_cons, List.sum_cons]
      ring
    · simp only [bumpTotals, if_neg h, sumMapQty, List.map_cons, List.sum_cons] at ih ⊢
      rw [ih]
      ring

theorem bumpTotals_sumMapAmt {κ : Type} [DecidableEq κ] (m : List (κ × Totals))
    (k : κ) (q : Int) (a : ℚ) :
    sumMapAmt (bumpTotals m k q a) = sumMapAmt m + a := by
  induction m with
  | nil => simp [bumpTotals, sumMapAmt]
  | cons e rest ih =>
    obtain ⟨k₀, t⟩ := e
    by_cases h : k₀ = k
    · simp only [bumpTotals, if_pos h, sumMapAmt, List.map_cons, List.sum_cons]
      ring
    · simp only [bumpTotals, if_neg h, sumMapAmt, List.map_cons, List.sum_cons] at ih ⊢
      rw [ih]
      ring

theorem consolidateByDate_loop_qty (rows : List ReportRow) :
    ∀ m : List (String × Totals),
      sumMapQty (rows.foldl (fun m r => bumpTotals m (rowDateKey r) (rowQty r) (rowAmt r)) m)
        = sumMapQty m + (rows.map rowQty).sum := by
  induction rows with
  | nil => intro m; simp
  | cons r rest ih =>
    intro m
    simp only [List.foldl_cons, List.map_cons, List.sum_cons, ih, bumpTotals_sumMapQty]
    ring

theorem consolidateByDate_loop_amt (rows : List ReportRow) :
    ∀ m : List (String × Totals),
      sumMapAmt (rows.foldl (fun m r => bumpTotals m (rowDateKey r) (rowQty r) (rowAmt r)) m)
        = sumMapAmt m + (rows.map rowAmt).sum := by
  induction rows with
  | nil => intro m; simp
  | cons r rest ih =>
    intro m
    simp only [List.foldl_cons, List.map_cons, List.sum_cons, ih, bumpTotals_sumMapAmt]
    ring

theorem bumpProductPayment_sumPPQty (m : List (Option String × List (String × Totals)))
    (p : Option String) (mode : String) (q : Int) (a : ℚ) :
    sumPPQty (bumpProductPayment m p mode q a) = sumPPQty m + q := by
  induction m with
  | nil => simp [bumpProductPayment, sumPPQty, sumMapQty, bumpTotals]
  | cons e rest ih =>
    obtain ⟨p₀, inner⟩ := e
    by_cases h : p₀ = p
    · simp only [bumpProductPayment, if_pos h, sumPPQty, List.map_cons, List.sum_cons,
        bumpTotals_sumMapQty]
      ring
    · simp only [bumpProductPayment, if_neg h, sumPPQty, List.map_cons, List.sum_cons] at ih ⊢
      rw [ih]
      ring

theorem bumpProductPayment_sumPPAmt (m : List (Option String × List (String × Totals)))
    (p : Option String) (mode : String) (q : Int) (a : ℚ) :
    sumPPAmt (bumpProductPayment m p mode q a) = sumPPAmt m + a := by
  induction m with
  | nil => simp [bumpProductPayment, sumPPAmt, sumMapAmt, bumpTotals]
  | cons e rest ih =>
    obtain ⟨p₀, inner⟩ := e
    by_cases h : p₀ = p
    · simp only [bumpProductPayment, if_pos h, sumPPAmt, List.map_cons, List.sum_cons,
        bumpTotals_sumMapAmt]
      ring
    · simp only [bumpProductPayment, if_neg h, sumPPAmt, List.map_cons, List.sum_cons] at ih ⊢
      rw [ih]
      ring

theorem consolidateByProductPayment_loop_qty (rows : List ReportRow) :
    ∀ m : List (Option String × List (String × Totals)),
      sumPPQty (rows.foldl (fun m r => bumpProductPayment m r.item (rowMode r) (rowQty r) (rowAmt r)) m)
        = sumPPQty m + (rows.map rowQty).sum := by
  induction rows with
  | nil => intro m; simp
  | cons r rest ih =>
    intro m
    simp only [List.foldl_cons, List.map_cons, List.sum_cons, ih, bumpProductPayment_sumPPQty]
    ring

theorem consolidateByProductPayment_loop_amt (rows : List ReportRow) :
    ∀ m : List (Option String × List (String × Totals)),
      sumPPAmt (rows.foldl (fun m r => bumpProductPayment m r.item (rowMode r) (rowQty r) (rowAmt r)) m)
        = sumPPAmt m + (rows.map rowAmt).sum := by
  induction rows with
  | nil => intro m; simp
  | cons r rest ih =>
    intro m
    simp only [List.foldl_cons, List.map_cons, List.sum_cons, ih, bumpProductPayment_sumPPAmt]
    ring

theorem consolidateByDate_sumQty (rows : List ReportRow) :
    sumMapQty (consolidateByDate rows) = (rows.map rowQty).sum := by
  have h := consolidateByDate_loop_qty rows []
  simpa [consolidateByDate, sumMapQty] using h

theorem consolidateByDate_sumAmt (rows : List ReportRow) :
    sumMapAmt (consolidateByDate rows) = (rows.map rowAmt).sum := by
  have h := consolidateByDate_loop_amt rows []
  simpa [consolidateByDate, sumMapAmt] using h

theorem consolidateByProductPayment_sumQty (rows : List ReportRow) :
    sumPPQty (consolidateByProductPayment rows) = (rows.map rowQty).sum := by
  have h := consolidateByProductPayment_loop_qty rows []
  simpa [consolidateByProductPayment, sumPPQty] using h

theorem consolidateByProductPayment_sumAmt (rows : List ReportRow) :
    sumPPAmt (consolidateByProductPayment rows) = (rows.map rowAmt).sum := by
  have h := consolidateByProductPayment_loop_amt rows []
  simpa [consolidateByProductPayment, sumPPAmt] using h

/-- C1: For every ledger (set of SaleRecords) and every filter
combination, the report by_date consolidation conserves totals: the sum
over all date keys of the qty buckets equals the sum of the quantity
contributions over all entries of rows, and likewise the sum of the
amount buckets equals the sum of the total contributions — no record
dropped, none counted twice. -/
theorem by_date_conserves_totals (ledger : List SaleRecord)
    (products : List (String × Product)) (req : ReportRequest) :
    sumMapQty (api_reports ledger products req).by_date
        = ((api_reports ledger products req).rows.map rowQty).sum ∧
      sumMapAmt (api_reports ledger products req).by_date
        = ((api_reports ledger products req).rows.map rowAmt).sum := by
  refine ⟨?_, ?_⟩ <;>
    simp [api_reports, consolidateByDate_sumQty, consolidateByDate_sumAmt]

/-- C2: For every ledger and every filter combination, the report
by_product_payment consolidation conserves totals: the sum over all
product keys and payment-mode keys of the qty buckets equals the sum of
the quantity contributions over all entries of rows, and likewise for
the amount buckets versus the total contributions. -/
theorem by_product_payment_conserves_totals (ledger : List SaleRecord)
    (products : List (String × Product)) (req : ReportRequest) :
    sumPPQty (api_reports ledger products req).by_product_payment
        = ((api_reports ledger products req).rows.map rowQty).sum ∧
      sumPPAmt (api_reports ledger products req).by_product_payment
        = ((api_reports ledger products req).rows.map rowAmt).sum := by
  refine ⟨?_, ?_⟩ <;>
    simp [api_reports, consolidateByProductPayment_sumQty, consolidateByProductPayment_sumAmt]

/-- C3: For every ledger and every filter combination, the rows list of
the report is the image, under the fixed-format UTC rendering
`recordToRow`, of a list of records that is pairwise non-increasing in
timestamp (descending order). -/
theorem rows_sorted_descending (ledger : List SaleRecord)
    (products : List (String × Product)) (req : ReportRequest) :
    ∃ recs : List SaleRecord,
      List.Pairwise (fun a b => b.timestamp.key ≤ a.timestamp.key) recs ∧
      (api_reports ledger products req).rows = recs.map recordToRow :=
  ⟨reportRecords ledger products req,
    List.sorted_insertionSort tsDesc _, rfl⟩

/-- C8: The Report Builder is deterministic and read-only: running the
handler leaves the stored state exactly as found, and a second run with
the same filter inputs over that state produces the identical report. -/
theorem report_handler_deterministic_readonly (s : PosState) (req : ReportRequest) :
    (api_reports_handler s req).1 = s ∧
      (api_reports_handler (api_reports_handler s req).1 req).2
        = (api_reports_handler s req).2 :=
  ⟨rfl, rfl⟩

/-- C4: With both date bounds set to the same parseable timestamp string,
the materialized query result is exactly (up to the descending reordering)
the ledger records whose timestamp instant equals the parsed bound: both
bounds are inclusive, so the conjunction `timestamp >= T AND
timestamp <= T` keeps precisely the records at `T`. -/
theorem equal_bounds_return_exact_timestamp (ledger : List SaleRecord)
    (products : List (String × Product)) (T : String) (t : DateTime)
    (h : fromisoformat T = some t) :
    List.Perm (reportRecords ledger products ⟨some T, some T, none⟩)
      (ledger.filter (fun r => r.timestamp.key == t.key)) := by
  have hT : T ≠ "" := by
    intro he
    rw [he] at h
    exact Option.noConfusion h
  have hb : parseBound (some T) = some t := by
    simp [parseBound, hT, h]
  have hfil : ∀ r ∈ ledger,
      matchesReport (parseBound (some T)) (parseBound (some T))
          (productNameFilter products none) r
        = (r.timestamp.key == t.key) := by
    intro r _
    rw [hb]
    simp only [matchesReport, productNameFilter, Bool.and_true]
    rcases Nat.lt_trichotomy t.key r.timestamp.key with hlt | heq | hgt
    · simp [Nat.le_of_lt hlt, Nat.not_le.2 hlt, Nat.ne_of_gt hlt]
    · simp [heq]
    · simp [Nat.not_le.2 hgt, Nat.ne_of_lt hgt]
  have h1 : List.Perm (reportRecords ledger products ⟨some T, some T, none⟩)
      (ledger.filter
        (matchesReport (parseBound (some T)) (parseBound (some T))
          (productNameFilter products none))) := by
    unfold reportRecords
    exact List.perm_insertionSort tsDesc _
  rw [List.filter_congr hfil] at h1
  exact h1

/-- C5: An unparseable date string in either bound field degrades to the
bound being omitted: the whole report output is identical, and no error
is surfaced. -/
theorem malformed_date_behaves_as_omitted (ledger : List SaleRecord)
    (products : List (String × Product)) (s : String)
    (h : fromisoformat s = none) (sd ed pid : Option String) :
    api_reports ledger products ⟨some s, ed, pid⟩
        = api_reports ledger products ⟨none, ed, pid⟩ ∧
      api_reports ledger products ⟨sd, some s, pid⟩
        = api_reports ledger products ⟨sd, none, pid⟩ := by
  have hb : parseBound (some s) = parseBound none := by
    by_cases he : s = ""
    · simp [parseBound, he]
    · simp [parseBound, he, h]
  constructor <;> simp only [api_reports, reportRecords, hb]

/-- C6: A product_id that does not resolve in the directory applies no
product restriction at all (identical full output to the same request
with product_id omitted, no error); a resolving product_id restricts the
result to the records whose item equals the product current name. -/
theorem product_filter_resolution (ledger : List SaleRecord)
    (products : List (String × Product)) (pid : String)
    (sd ed : Option String) (prod : Product) :
    (lookupProduct products pid = none →
        api_reports ledger products ⟨sd, ed, some pid⟩
          = api_reports ledger products ⟨sd, ed, none⟩) ∧
      (pid ≠ "" → lookupProduct products pid = some prod →
        List.Perm (reportRecords ledger products ⟨sd, ed, some pid⟩)
          ((reportRecords ledger products ⟨sd, ed, none⟩).filter
            (fun r => r.item == prod.name))) := by
  constructor
  · intro h
    have hpf : productNameFilter products (some pid) = productNameFilter products none := by
      by_cases he : pid = ""
      · simp [productNameFilter, he]
      · simp [productNameFilter, he, h]
    simp only [api_reports, reportRecords, hpf]
  · intro hne h
    have hpf : productNameFilter products (some pid) = some prod.name := by
      simp [productNameFilter, hne, h]
    have base :
        List.Perm
          ((reportRecords ledger products ⟨sd, ed, none⟩).filter (fun r => r.item == prod.name))
          ((ledger.filter
              (matchesReport (parseBound sd) (parseBound ed) (productNameFilter products none))).filter
                (fun r => r.item == prod.name)) := by
      unfold reportRecords
      exact (List.perm_insertionSort tsDesc _).filter _
    have hsplit :
        (ledger.filter
            (matchesReport (parseBound sd) (parseBound ed) (productNameFilter products none))).filter
              (fun r => r.item == prod.name)
          = ledger.filter
              (matchesReport (parseBound sd) (parseBound ed) (some prod.name)) := by
      rw [List.filter_filter]
      refine List.filter_congr ?_
      intro r _
      simp only [matchesReport, productNameFilter, Bool.and_true]
      cases hi : (r.item == prod.name) <;> simp [Bool.and_comm]
    have h1 : List.Perm (reportRecords ledger products ⟨sd, ed, some pid⟩)
        (ledger.filter
          (matchesReport (parseBound sd) (parseBound ed)
            (productNameFilter products (some pid)))) := by
      unfold reportRecords
      exact List.perm_insertionSort tsDesc _
    rw [hpf, ← hsplit] at h1
    exact h1.trans base.symm

/-- C7: A successful sale entry appends exactly one new record, leaving
every earlier record untouched, and that record snapshots the product
name and price of the moment and satisfies `total = quantity * price` at
creation. -/
theorem sale_record_total_invariant (products : List (String × Product))
    (ledger : List SaleRecord) (pid : String) (qty : Int)
    (pm : Option String) (now : DateTime) (prod : Product)
    (h : lookupProduct products pid = some prod) :
    ∃ sale : SaleRecord,
      (api_add_sale products ledger pid qty pm now).success = true ∧
      (api_add_sale products ledger pid qty pm now).ledger = ledger ++ [sale] ∧
      sale.item = prod.name ∧
      sale.price = some (prod.price.getD 0) ∧
      sale.quantity = some qty ∧
      sale.timestamp = now ∧
      sale.total = some ((qty : ℚ) * prod.price.getD 0) ∧
      sale.total = some ((sale.quantity.getD 0 : ℚ) * sale.price.getD 0) := by
  refine ⟨⟨some pid, prod.name, some qty, some (prod.price.getD 0),
    some ((qty : ℚ) * prod.price.getD 0), some (pm.getD "Cash"), now⟩, ?_⟩
  simp [api_add_sale, h]

/-- C9: A sale entry whose product id is not in the directory fails with
the `Product not found` message and writes nothing: the ledger is
returned exactly as it was. -/
theorem add_sale_unknown_product_atomic (products : List (String × Product))
    (ledger : List SaleRecord) (pid : String) (qty : Int)
    (pm : Option String) (now : DateTime)
    (h : lookupProduct products pid = none) :
    (api_add_sale products ledger pid qty pm now).success = false ∧
      (api_add_sale products ledger pid qty pm now).message = some "Product not found" ∧
      (api_add_sale products ledger pid qty pm now).ledger = ledger := by
  simp [api_add_sale, h]

theorem bumpTotals_mapQty {κ : Type} [DecidableEq κ] [BEq κ] [LawfulBEq κ]
    (m : List (κ × Totals)) (k : κ) (q : Int) (a : ℚ) :
    mapQty (bumpTotals m k q a) k = mapQty m k + q := by
  induction m with
  | nil => simp [bumpTotals, mapQty]
  | cons e rest ih =>
    obtain ⟨k₀, t⟩ := e
    by_cases h : k₀ = k
    · simp [bumpTotals, h, mapQty]
    · simp only [bumpTotals, if_neg h, mapQty, List.find?_cons] at ih ⊢
      have hne : (k₀ == k) = false := beq_false_of_ne h
      simp only [hne] at ih ⊢
      exact ih

theorem bumpProductPayment_ppQty (m : List (Option String × List (String × Totals)))
    (p : Option String) (mode : String) (q : Int) (a : ℚ) :
    ppQty (bumpProductPayment m p mode q a) p mode = ppQty m p mode + q := by
  induction m with
  | nil =>
    simp [bumpProductPayment, ppQty, bumpTotals, mapQty]
  | cons e rest ih =>
    obtain ⟨p₀, inner⟩ := e
    by_cases h : p₀ = p
    · simp only [bumpProductPayment, if_pos h, ppQty, List.find?_cons, h]
      simp [bumpTotals_mapQty]
    · have hne : (p₀ == p) = false := beq_false_of_ne h
      simp only [bumpProductPayment, if_neg h, ppQty, List.find?_cons, hne] at ih ⊢
      exact ih

/-- C10: During aggregation a partially-populated row degrades to
defaults instead of failing: a missing quantity contributes `0` to the
qty sums, a missing total contributes `0` to the amount sums, and a row
with no payment_mode is accumulated under the `Cash` bucket of its item
in by_product_payment. -/
theorem aggregation_missing_field_defaults (rows : List ReportRow) (r : ReportRow) :
    (r.quantity = none →
        sumMapQty (consolidateByDate (rows ++ [r]))
          = sumMapQty (consolidateByDate rows)) ∧
      (r.total = none →
        sumMapAmt (consolidateByDate (rows ++ [r]))
          = sumMapAmt (consolidateByDate rows)) ∧
      (r.payment_mode = none →
        ppQty (consolidateByProductPayment (rows ++ [r])) r.item "Cash"
          = ppQty (consolidateByProductPayment rows) r.item "Cash" + rowQty r) := by
  refine ⟨?_, ?_, ?_⟩
  · intro hq
    simp [consolidateByDate_sumQty, rowQty, hq]
  · intro ht
    simp [consolidateByDate_sumAmt, rowAmt, ht]
  · intro hp
    have hstep : consolidateByProductPayment (rows ++ [r])
        = bumpProductPayment (consolidateByProductPayment rows) r.item (rowMode r)
            (rowQty r) (rowAmt r) := by
      simp [consolidateByProductPayment, List.foldl_append]
    rw [hstep]
    have hmode : rowMode r = "Cash" := by simp [rowMode, hp]
    rw [hmode]
    exact bumpProductPayment_ppQty _ _ _ _ _

/-- A three-sale demonstration ledger for the concrete instantiations. -/
def demoLedger : List SaleRecord :=
  [⟨some "p1", some "Tea", some 2, some 10, some 20, some "Cash", ⟨2024, 1, 1, 9, 0, 0⟩⟩,
   ⟨some "p1", some "Tea", some 1, some 10, some 10, some "Card", ⟨2024, 1, 1, 10, 0, 0⟩⟩,
   ⟨some "p2", some "Coffee", some 3, some 20, some 60, some "Cash", ⟨2024, 1, 2, 9, 0, 0⟩⟩]

/-- A two-product demonstration directory. -/
def demoProducts : List (String × Product) :=
  [("p1", ⟨some "Tea", some 10⟩), ("p2", ⟨some "Coffee", some 20⟩)]

/-- A partially-populated row: quantity, total and payment_mode all
absent. -/
def sparseRow : ReportRow :=
  ⟨none, some "Tea", none, none, none, none, "2024-01-01 09:00:00"⟩

theorem equal_bounds_return_exact_timestamp_witness :
    fromisoformat "2024-01-01 09:00:00" = some ⟨2024, 1, 1, 9, 0, 0⟩ ∧
      List.Perm
        (reportRecords demoLedger demoProducts
          ⟨some "2024-01-01 09:00:00", some "2024-01-01 09:00:00", none⟩)
        (demoLedger.filter
          (fun r => r.timestamp.key == (⟨2024, 1, 1, 9, 0, 0⟩ : DateTime).key)) :=
  ⟨by decide,
   equal_bounds_return_exact_timestamp demoLedger demoProducts
     "2024-01-01 09:00:00" ⟨2024, 1, 1, 9, 0, 0⟩ (by decide)⟩

theorem malformed_date_behaves_as_omitted_witness :
    fromisoformat "not-a-date" = none ∧
      api_reports demoLedger demoProducts ⟨some "not-a-date", none, none⟩
        = api_reports demoLedger demoProducts ⟨none, none, none⟩ ∧
      api_reports demoLedger demoProducts ⟨none, some "not-a-date", none⟩
        = api_reports demoLedger demoProducts ⟨none, none, none⟩ :=
  ⟨by decide,
   (malformed_date_behaves_as_omitted demoLedger demoProducts "not-a-date"
     (by decide) none none none).1,
   (malformed_date_behaves_as_omitted demoLedger demoProducts "not-a-date"
     (by decide) none none none).2⟩

theorem product_filter_resolution_witness :
    api_reports demoLedger demoProducts ⟨none, none, some "zz"⟩
        = api_reports demoLedger demoProducts ⟨none, none, none⟩ ∧
      List.Perm (reportRecords demoLedger demoProducts ⟨none, none, some "p1"⟩)
        ((reportRecords demoLedger demoProducts ⟨none, none, none⟩).filter
          (fun r => r.item == (⟨some "Tea", some 10⟩ : Product).name)) :=
  ⟨(product_filter_resolution demoLedger demoProducts "zz" none none ⟨none, none⟩).1 rfl,
   (product_filter_resolution demoLedger demoProducts "p1" none none
     ⟨some "Tea", some 10⟩).2 (by decide) rfl⟩

theorem sale_record_total_invariant_witness :
    ∃ sale : SaleRecord,
      (api_add_sale demoProducts demoLedger "p1" 4 none ⟨2024, 1, 3, 12, 0, 0⟩).success = true ∧
      (api_add_sale demoProducts demoLedger "p1" 4 none ⟨2024, 1, 3, 12, 0, 0⟩).ledger
        = demoLedger ++ [sale] ∧
      sale.item = (⟨some "Tea", some 10⟩ : Product).name ∧
      sale.price = some ((⟨some "Tea", some 10⟩ : Product).price.getD 0) ∧
      sale.quantity = some 4 ∧
      sale.timestamp = ⟨2024, 1, 3, 12, 0, 0⟩ ∧
      sale.total = some (((4 : Int) : ℚ) * (⟨some "Tea", some 10⟩ : Product).price.getD 0) ∧
      sale.total = some ((sale.quantity.getD 0 : ℚ) * sale.price.getD 0) :=
  sale_record_total_invariant demoProducts demoLedger "p1" 4 none ⟨2024, 1, 3, 12, 0, 0⟩
    ⟨some "Tea", some 10⟩ rfl

theorem add_sale_unknown_product_atomic_witness :
    (api_add_sale demoProducts demoLedger "ghost" 1 none ⟨2024, 1, 3, 12, 0, 0⟩).success = false ∧
      (api_add_sale demoProducts demoLedger "ghost" 1 none ⟨2024, 1, 3, 12, 0, 0⟩).message
        = some "Product not found" ∧
      (api_add_sale demoProducts demoLedger "ghost" 1 none ⟨2024, 1, 3, 12, 0, 0⟩).ledger
        = demoLedger :=
  add_sale_unknown_product_atomic demoProducts demoLedger "ghost" 1 none
    ⟨2024, 1, 3, 12, 0, 0⟩ rfl

theorem aggregation_missing_field_defaults_witness :
    sumMapQty (consolidateByDate ([] ++ [sparseRow])) = sumMapQty (consolidateByDate []) ∧
      sumMapAmt (consolidateByDate ([] ++ [sparseRow])) = sumMapAmt (consolidateByDate []) ∧
      ppQty (consolidateByProductPayment ([] ++ [sparseRow])) sparseRow.item "Cash"
        = ppQty (consolidateByProductPayment []) sparseRow.item "Cash" + rowQty sparseRow :=
  ⟨(aggregation_missing_field_defaults [] sparseRow).1 rfl,
   (aggregation_missing_field_defaults [] sparseRow).2.1 rfl,
   (aggregation_missing_field_defaults [] sparseRow).2.2 rfl⟩

end Pos
